import Mathlib

/-!
Shallow embedding of the RED (reverse electrodialysis) co-flow stack model:
the TCPC activity-coefficient correlation (model_mechanics/TCPC.py),
the exergy/entropy computation (model_mechanics/exergy_TCPC.py),
the post-processing of solved profiles (model_mechanics/coFlow_NaCl_outputs.py),
and the CoFlow stack class (model_mechanics/model_class.py).

Python floats are modelled as real numbers; numpy elementwise array
operations as List.map / List.zipWith.  The two third-party numerical
routines, scipy.integrate.odeint and scipy.integrate.simps, are not part
of the repository: they enter the embedding as explicit arguments (the
integrator output list `sol`, the quadrature functional `integ`), so that
every formula written in the repository itself is embedded exactly.
-/

/-- model_mechanics/TCPC.py, class Salt: parameters of the
Three-Characteristic-Parameter Correlation of Ge et al. for a binary salt. -/
structure Salt where
  zplus : ℝ
  zmin : ℝ
  vplus : ℝ
  vmin : ℝ
  b : ℝ
  S : ℝ
  n : ℝ

/-- Class attribute Aphi = 0.392 (valid at 298.15 K). -/
noncomputable def Salt.Aphi : ℝ := 0.392

/-- Class attribute T = 298.15. -/
noncomputable def Salt.T : ℝ := 298.15

/-- Salt.TCPC: the mean activity coefficient at ionic strength I. -/
noncomputable def Salt.TCPC (s : Salt) (I : ℝ) : ℝ :=
  let fgamma := - Salt.Aphi *
    (I ^ (0.5 : ℝ) / (1 + s.b * I ^ (0.5 : ℝ))
      + (2 / s.b) * Real.log (1 + s.b * I ^ (0.5 : ℝ)))
  let gammaSV := (s.S / Salt.T) * I ^ (2 * s.n) / (s.vplus + s.vmin)
  Real.exp (s.zplus * s.zmin * fgamma + gammaSV)

/-- Salt.osmo: the osmotic coefficient at ionic strength I. -/
noncomputable def Salt.osmo (s : Salt) (I : ℝ) : ℝ :=
  1 - (s.zplus * s.zmin) * Salt.Aphi * (I ^ (0.5 : ℝ) / (1 + s.b * I ^ (0.5 : ℝ)))
    + (s.S / (Salt.T * (s.vplus + s.vmin))) * (2 * s.n / (2 * s.n + 1)) * I ^ (2 * s.n)

/-- Module-level `NaCl = Salt(1, 1, 1, 1, 3.0210, 36.1573, 0.8998)` of
exergy_TCPC.py (the same literal parameters are stored in self.NaCl by
CoFlow.__init__). -/
noncomputable def NaCl : Salt := ⟨1, 1, 1, 1, 3.0210, 36.1573, 0.8998⟩

/-- exergy_TCPC.moles: molar flow rates [nNa, nCl, nH2O, nTot] of a NaCl
solution of concentration C [mol m-3] at volumetric flow rate f [m3 s-1]. -/
noncomputable def moles (C f : ℝ) : List ℝ :=
  let MW_NaCl : ℝ := 58.44 / 1000
  let MW_H2O : ℝ := 18.01 / 1000
  let dens := (0.0375 * (C / 1000) + 0.9987) * 1000
  let nNa := C * f
  let nCl := C * f
  let nH2O := f * (dens - C * MW_NaCl) / MW_H2O
  let nTot := nNa + nCl + nH2O
  [nNa, nCl, nH2O, nTot]

/-- exergy_TCPC.fractions: mole fractions [xNa, xCl, xH2O] from a molar-flow
list in the form [nNa, nCl, nH2O, nTot]. -/
noncomputable def fractions (ns : List ℝ) : List ℝ :=
  [ns.getD 0 0 / ns.getD 3 0, ns.getD 1 0 / ns.getD 3 0, ns.getD 2 0 / ns.getD 3 0]

/-- exergy_TCPC.activity: TCPC activity coefficient of the module-level NaCl
salt, with the concentration converted from mol m-3 to mol/L. -/
noncomputable def activity (C : ℝ) : ℝ := Salt.TCPC NaCl (C / 1000)

/-- exergy_TCPC.entropy: returns the tuple (n, x, y, entropy rate) of the
Python list [n, x, y, entropy]. -/
noncomputable def entropy (C f : ℝ) : List ℝ × List ℝ × ℝ × ℝ :=
  let ns := moles C f
  let x := fractions ns
  let y := activity C
  let R : ℝ := 8.314
  let ent := - R * ns.getD 3 0 *
    (x.getD 0 0 * Real.log (y * x.getD 0 0)
      + x.getD 1 0 * Real.log (y * x.getD 1 0)
      + x.getD 2 0 * Real.log (x.getD 2 0))
  (ns, x, y, ent)

/-- exergy_TCPC.exergy: returns ([S_SW, S_RW, S_Mix], exergy rate). -/
noncomputable def exergy (T cSW cRW cMix fSW fRW fMix : ℝ) : List ℝ × ℝ :=
  let SW := entropy cSW fSW
  let RW := entropy cRW fRW
  let Mix := entropy cMix fMix
  ([SW.2.2.2, RW.2.2.2, Mix.2.2.2], T * (Mix.2.2.2 - SW.2.2.2 - RW.2.2.2))

/-- coFlow_NaCl_outputs.power_density, with the scipy.integrate.simps
quadrature functional passed in as `integ`. -/
noncomputable def power_density (integ : List ℝ → List ℝ → ℝ)
    (Uload : ℝ) (E Rcell : List ℝ) (W L : ℝ) (x : List ℝ) : ℝ × ℝ :=
  let U := Uload
  let Pd := List.zipWith (fun e rc => (e * U - U ^ 2) / rc) E Rcell
  let Pd_avg := integ Pd x / (2 * L)
  let Power_tot := Pd_avg * (2 * W * L)
  (Power_tot, Pd_avg)

/-- coFlow_NaCl_outputs.efficiencies: (eta_energy, eta_thermo).  Vector
indexing cSW[-1], cSW[0], cMix[0] is modelled with getLastD / headD. -/
noncomputable def efficiencies (cRW cSW : List ℝ) (fRW fSW Temp Power : ℝ) : ℝ × ℝ :=
  let cSWout := cSW.getLastD 0
  let cRWout := cRW.getLastD 0
  let fMix := fRW + fSW
  let cMix := List.zipWith (fun cs cr => (fSW * cs + fRW * cr) / fMix) cSW cRW
  let cMixout := (fSW * cSWout + fRW * cRWout) / fMix
  let dG_in := (exergy Temp (cSW.headD 0) (cRW.headD 0) (cMix.headD 0) fSW fRW fMix).2
  let dG_out := (exergy Temp cSWout cRWout cMixout fSW fRW fMix).2
  (100 * Power / dG_in, 100 * Power / (dG_in - dG_out))

/-- Membrane attributes set by the two if-blocks of CoFlow.__init__. -/
structure MembraneParams where
  Raem : ℝ
  Rcem : ℝ
  a : ℝ
  Dnacl : ℝ
  Dw : ℝ
  Hm : ℝ
  Keosm : ℝ

/-- The attribute values of the Ideal CEM/AEM if-block. -/
noncomputable def idealMembrane : MembraneParams :=
  ⟨1.0e-4, 1.0e-4, 0.90, 0, 0, 80e-6, 0⟩

/-- The attribute values of the Fujifilm CEM/AEM type 10 if-block. -/
noncomputable def fujifilmMembrane : MembraneParams :=
  ⟨1.77e-4, 2.69e-4, 0.946, 1.5e-12, 4.5e-9, 145e-6, 6⟩

/-- The first membrane label tested by CoFlow.__init__. -/
def idealLabel : String := "Ideal CEM/AEM"

/-- The second membrane label tested by CoFlow.__init__. -/
def fujifilmLabel : String := "Fujifilm CEM/AEM type 10"

/-- The membrane branch of CoFlow.__init__ (model_class.py lines 89-107):
two independent if-blocks with no else branch, so a label matching neither
string leaves the membrane attributes unset; that unset state is modelled
as `none`. -/
noncomputable def selectMembrane (membranes : String) : Option MembraneParams :=
  if membranes = idealLabel then some idealMembrane
  else if membranes = fujifilmLabel then some fujifilmMembrane
  else none

/-- np.linspace(0, L, n): n evenly spaced points from 0 to L inclusive. -/
noncomputable def linspace (L : ℝ) (n : ℕ) : List ℝ :=
  (List.range n).map (fun i : ℕ => L * (i : ℝ) / ((n : ℝ) - 1))

/-- The state built by CoFlow.__init__ (solution placeholders omitted;
they stay None until solve_system runs). -/
structure CoFlow where
  selfNaCl : Salt
  R : ℝ
  Temp : ℝ
  Fad : ℝ
  Vw : ℝ
  obstr : ℝ
  Lambda : ℝ
  tRW : ℝ
  tSW : ℝ
  W : ℝ
  L : ℝ
  d : ℝ
  fSW : ℝ
  fRW : ℝ
  membrane : Option MembraneParams
  Uload : ℝ
  cSW0 : ℝ
  cRW0 : ℝ
  Qzero : ℝ × ℝ
  x : List ℝ
  solved : Bool

/-- CoFlow.__init__: stores constants, computes the flow rates and the
spatial domain, selects the membrane attributes, and completes without any
validation of the membrane label (no exception is raised on a mismatch). -/
noncomputable def CoFlow.init (tRW tSW W L d : ℝ) (membranes : String)
    (Uload cRW0 cSW0 : ℝ) (intervals : ℕ) : CoFlow :=
  { selfNaCl := ⟨1, 1, 1, 1, 3.0210, 36.1573, 0.8998⟩
    R := 8.3143
    Temp := 298.0
    Fad := 96485.0
    Vw := 18e-6
    obstr := 1.65
    Lambda := 0.01287
    tRW := tRW
    tSW := tSW
    W := W
    L := L
    d := d
    fSW := L * W * d / tSW
    fRW := L * W * d / tRW
    membrane := selectMembrane membranes
    Uload := Uload
    cSW0 := cSW0
    cRW0 := cRW0
    Qzero := (cSW0, cRW0)
    x := linspace L intervals
    solved := false }

/-- CoFlow.water_ohmic_drop. -/
noncomputable def CoFlow.water_ohmic_drop (s : CoFlow) (C : ℝ) : ℝ :=
  s.obstr * s.d / (s.Lambda * C)

/-- CoFlow.activity: C * NaCl.TCPC(C/1000), using the module-level NaCl
object brought in by the star-imports (not self.NaCl). -/
noncomputable def CoFlow.activity (C : ℝ) : ℝ := C * Salt.TCPC NaCl (C / 1000)

/-- CoFlow.dQdx, the ODE right-hand side.  The membrane attributes read off
self are passed as the record `m` (selected from self.membrane). -/
noncomputable def CoFlow.dQdx (s : CoFlow) (m : MembraneParams) (Q : ℝ × ℝ) : ℝ × ℝ :=
  let cSW := Q.1
  let cRW := Q.2
  let rRW := s.water_ohmic_drop cRW
  let rSW := s.water_ohmic_drop cSW
  let aSW := CoFlow.activity cSW
  let aRW := CoFlow.activity cRW
  let preF := m.a * 2 * s.R * s.Temp / s.Fad
  let E := preF * Real.log (aSW / aRW)
  let Rcell := m.Raem + m.Rcem + rRW + rSW
  let U := s.Uload
  let J := (E - U) / Rcell
  let Tnacl := J / s.Fad + (cSW - cRW) * 2 * m.Dnacl / m.Hm
  let Tw := - (cSW - cRW) * 2 * m.Dw * s.Vw / m.Hm + m.Keosm * s.Vw * J / s.Fad
  (- s.W * Tnacl / s.fSW + s.W * cSW * Tw / s.fSW,
    s.W * Tnacl / s.fRW - s.W * cRW * Tw / s.fRW)

/-- The fields CoFlow.solve_system fills in. -/
structure SolveOutputs where
  cRW : List ℝ
  cSW : List ℝ
  E : List ℝ
  Rcell : List ℝ
  J : List ℝ
  power : ℝ
  pd_avg : ℝ
  eta_energy : ℝ
  eta_thermo : ℝ

/-- CoFlow.solve_system after the scipy odeint call: `sol` is the odeint
output (one row (cSW, cRW) per point of self.x), `m` the membrane record
read off self, `integ` the scipy simps functional used by power_density.
Every value computed from `sol` is embedded exactly; note that no check of
any kind is applied to `sol` before post-processing. -/
noncomputable def CoFlow.solve_system (s : CoFlow) (m : MembraneParams)
    (integ : List ℝ → List ℝ → ℝ) (sol : List (ℝ × ℝ)) : SolveOutputs :=
  let cRW := sol.map Prod.snd
  let cSW := sol.map Prod.fst
  let aRW := cRW.map CoFlow.activity
  let aSW := cSW.map CoFlow.activity
  let preF := m.a * 2 * s.R * s.Temp / s.Fad
  let E := List.zipWith (fun aS aR => preF * Real.log (aS / aR)) aSW aRW
  let rRW := cRW.map s.water_ohmic_drop
  let rSW := cSW.map s.water_ohmic_drop
  let Rcell := List.zipWith (fun rr rs => m.Raem + m.Rcem + rr + rs) rRW rSW
  let J := List.zipWith (fun e rc => (e - s.Uload) / rc) E Rcell
  let pw := power_density integ s.Uload E Rcell s.W s.L s.x
  let eff := efficiencies cRW cSW s.fRW s.fSW s.Temp pw.1
  ⟨cRW, cSW, E, Rcell, J, pw.1, pw.2, eff.1, eff.2⟩

/-! ### Helper lemmas on list indexing -/

theorem getD_map_of_lt {α β : Type} (g : α → β) (l : List α) (i : ℕ)
    (h : i < l.length) (d : α) (d' : β) :
    (l.map g).getD i d' = g (l.getD i d) := by
  induction l generalizing i with
  | nil => simp at h
  | cons a t ih =>
    cases i with
    | zero => simp
    | succ j =>
      simp only [List.map_cons, List.getD_cons_succ]
      exact ih j (by simp at h; omega)

theorem getD_zipWith_of_lt {α β γ : Type} (g : α → β → γ) (l1 : List α)
    (l2 : List β) (i : ℕ) (h1 : i < l1.length) (h2 : i < l2.length)
    (d1 : α) (d2 : β) (d : γ) :
    (List.zipWith g l1 l2).getD i d = g (l1.getD i d1) (l2.getD i d2) := by
  induction l1 generalizing l2 i with
  | nil => simp at h1
  | cons a t ih =>
    cases l2 with
    | nil => simp at h2
    | cons b u =>
      cases i with
      | zero => simp
      | succ j =>
        simp only [List.zipWith_cons_cons, List.getD_cons_succ]
        exact ih u j (by simp at h1; omega) (by simp at h2; omega)

/-! ### Claim theorems -/

/-- Claim C5: for every valid SaltParameters record (in particular any salt
with exponent n > 0), the branch-free TCPC formulas give activity
coefficient exactly 1 and osmotic coefficient exactly 1 at ionic strength
I = 0. -/
theorem TCPC_osmo_at_zero (s : Salt) (hn : 0 < s.n) :
    Salt.TCPC s 0 = 1 ∧ Salt.osmo s 0 = 1 := by
  have h05 : (0 : ℝ) ^ (0.5 : ℝ) = 0 := Real.zero_rpow (by norm_num)
  have h2n : (0 : ℝ) ^ (2 * s.n) = 0 := Real.zero_rpow (by positivity)
  constructor
  · simp [Salt.TCPC, h05, h2n]
  · simp [Salt.osmo, h05, h2n]

/-- Witness for C5: the NaCl parameters are valid (n = 0.8998 > 0) and both
coefficients evaluate to 1 at I = 0. -/
theorem TCPC_osmo_at_zero_witness :
    0 < NaCl.n ∧ (Salt.TCPC NaCl 0 = 1 ∧ Salt.osmo NaCl 0 = 1) :=
  ⟨by norm_num [NaCl], TCPC_osmo_at_zero NaCl (by norm_num [NaCl])⟩

/-- Claim C8: whenever moles(C,f) yields a positive total molar flow, the
three mole fractions returned by fractions(moles(C,f)) sum to exactly 1. -/
theorem fractions_moles_sum_one (C f : ℝ) (h : 0 < (moles C f).getD 3 0) :
    (fractions (moles C f)).getD 0 0 + (fractions (moles C f)).getD 1 0
      + (fractions (moles C f)).getD 2 0 = 1 := by
  simp only [moles, fractions, List.getD_cons_zero, List.getD_cons_succ] at h ⊢
  rw [div_add_div_same, div_add_div_same, div_self (ne_of_gt h)]

/-- Witness for C8 at C = 1000 mol/m3, f = 1 m3/s. -/
theorem fractions_moles_sum_one_witness :
    0 < (moles 1000 1).getD 3 0 ∧
      (fractions (moles 1000 1)).getD 0 0 + (fractions (moles 1000 1)).getD 1 0
        + (fractions (moles 1000 1)).getD 2 0 = 1 := by
  have h : 0 < (moles (1000 : ℝ) 1).getD 3 0 := by
    norm_num [moles, List.getD_cons_zero, List.getD_cons_succ]
  exact ⟨h, fractions_moles_sum_one 1000 1 h⟩

/-- np.linspace(0, L, n) has exactly n entries. -/
theorem linspace_length (L : ℝ) (n : ℕ) : (linspace L n).length = n := by
  unfold linspace
  rw [List.length_map, List.length_range]

/-- A membrane label matching neither branch of CoFlow.__init__. -/
def unknownLabel : String := "Custom CEM/AEM"

/-- Claim C1 (behaviour at the failing input): constructing CoFlow with an
unrecognized membrane label raises no error; the instance is built with the
domain in place and the membrane attributes left unset (modelled as none),
so the configuration is not rejected before integration begins. -/
theorem init_unknown_membrane_not_rejected :
    (CoFlow.init 22 22 0.22 0.22 0.0001 unknownLabel 0.08 17.1 512 100).membrane
        = none
      ∧ (CoFlow.init 22 22 0.22 0.22 0.0001 unknownLabel 0.08 17.1 512
          100).solved = false
      ∧ (CoFlow.init 22 22 0.22 0.22 0.0001 unknownLabel 0.08 17.1 512
          100).x.length = 100 := by
  refine ⟨?_, rfl, ?_⟩
  · simp [CoFlow.init, selectMembrane, unknownLabel, idealLabel, fujifilmLabel]
  · show (linspace 0.22 100).length = 100
    exact linspace_length 0.22 100

/-! ### Entropy/exergy scaling lemmas -/

/-- The entropy rate of exergy_TCPC.entropy is homogeneous in the flow rate:
all molar flows scale linearly with f, the mole fractions and the activity
coefficient are unchanged, so the entropy rate picks up exactly a factor f. -/
theorem entropy_scale (C f : ℝ) (hf : f ≠ 0) :
    (entropy C f).2.2.2 = f * (entropy C 1).2.2.2 := by
  simp only [entropy, moles, fractions, List.getD_cons_zero, List.getD_cons_succ]
  generalize ((0.0375 * (C / 1000) + 0.9987) * 1000 - C * (58.44 / 1000) : ℝ) = A
  generalize (18.01 / 1000 : ℝ) = M
  have hT : C * f + C * f + f * A / M = f * (C * 1 + C * 1 + 1 * A / M) := by ring
  have hx1 : C * f / (C * f + C * f + f * A / M)
      = C * 1 / (C * 1 + C * 1 + 1 * A / M) := by
    rw [hT, show C * f = f * (C * 1) by ring]
    exact mul_div_mul_left (C * 1) _ hf
  have hx3 : f * A / M / (C * f + C * f + f * A / M)
      = 1 * A / M / (C * 1 + C * 1 + 1 * A / M) := by
    rw [hT, show f * A / M = f * (1 * A / M) by ring]
    exact mul_div_mul_left (1 * A / M) _ hf
  rw [hx1, hx3, hT]
  ring

/-- Mixing two streams of the same concentration into one of that same
concentration produces exactly zero exergy rate. -/
theorem exergy_mix_zero (T C fa fb fm : ℝ) (ha : fa ≠ 0) (hb : fb ≠ 0)
    (hm : fm ≠ 0) (hsum : fm = fa + fb) :
    (exergy T C C C fa fb fm).2 = 0 := by
  simp only [exergy]
  rw [entropy_scale C fa ha, entropy_scale C fb hb, entropy_scale C fm hm, hsum]
  ring

/-- On constant equal SW/RW profiles the dG_in computed inside efficiencies
is exactly zero, and the unguarded divisions go through with denominator
zero (real division by zero evaluating to zero in the embedding). -/
theorem efficiencies_equal_conc (C f1 f2 T P : ℝ) (h1 : 0 < f1) (h2 : 0 < f2) :
    (exergy T C C ((f2 * C + f1 * C) / (f1 + f2)) f2 f1 (f1 + f2)).2 = 0
      ∧ efficiencies [C, C] [C, C] f1 f2 T P = (0, 0) := by
  have h12 : (0 : ℝ) < f1 + f2 := by linarith
  have hmix : (f2 * C + f1 * C) / (f1 + f2) = C := by
    rw [div_eq_iff (ne_of_gt h12)]; ring
  have hdG : (exergy T C C ((f2 * C + f1 * C) / (f1 + f2)) f2 f1 (f1 + f2)).2 = 0 := by
    rw [hmix]
    exact exergy_mix_zero T C f2 f1 (f1 + f2) (ne_of_gt h2) (ne_of_gt h1)
      (ne_of_gt h12) (by ring)
  refine ⟨hdG, ?_⟩
  simp only [efficiencies, List.zipWith_cons_cons, List.zipWith_nil_right,
    List.getLastD, List.headD]
  rw [hdG]
  norm_num
  exact Or.inr hdG

/-- Claim C10: the entropy rate is additive (linear) in the flow rate, so
merging two streams of equal concentration yields exactly zero mixing
exergy, and on equal constant SW/RW profiles the dG_in denominator inside
efficiencies is exactly zero, so both efficiency ratios are divisions by
zero (which the embedding evaluates to 0; numpy propagates inf/nan). -/
theorem entropy_linear_exergy_zero (T C f1 f2 P : ℝ) (hC : 0 < C)
    (h1 : 0 < f1) (h2 : 0 < f2) :
    (entropy C (f1 + f2)).2.2.2 = (entropy C f1).2.2.2 + (entropy C f2).2.2.2
      ∧ (exergy T C C C f1 f2 (f1 + f2)).2 = 0
      ∧ (exergy T C C ((f2 * C + f1 * C) / (f1 + f2)) f2 f1 (f1 + f2)).2 = 0
      ∧ efficiencies [C, C] [C, C] f1 f2 T P = (0, 0) := by
  have h12 : (0 : ℝ) < f1 + f2 := by linarith
  obtain ⟨hdG, heff⟩ := efficiencies_equal_conc C f1 f2 T P h1 h2
  refine ⟨?_, ?_, hdG, heff⟩
  · rw [entropy_scale C f1 (ne_of_gt h1), entropy_scale C f2 (ne_of_gt h2),
      entropy_scale C (f1 + f2) (ne_of_gt h12)]
    ring
  · exact exergy_mix_zero T C f1 f2 (f1 + f2) (ne_of_gt h1) (ne_of_gt h2)
      (ne_of_gt h12) rfl

/-- Witness for C10 at T = 298 K, C = 100 mol/m3, f1 = f2 = 1 m3/s, P = 1 W. -/
theorem entropy_linear_exergy_zero_witness :
    (0 : ℝ) < 100 ∧ (0 : ℝ) < 1 ∧
      ((entropy 100 (1 + 1)).2.2.2 = (entropy 100 1).2.2.2 + (entropy 100 1).2.2.2
        ∧ (exergy 298 100 100 100 1 1 (1 + 1)).2 = 0
        ∧ (exergy 298 100 100 ((1 * 100 + 1 * 100) / (1 + 1)) 1 1 (1 + 1)).2 = 0
        ∧ efficiencies [100, 100] [100, 100] 1 1 298 1 = (0, 0)) :=
  ⟨by norm_num, by norm_num,
    entropy_linear_exergy_zero 298 100 1 1 1 (by norm_num) (by norm_num)
      (by norm_num)⟩

/-- Claim C2 (behaviour at the failing input): with equal SW and RW
profiles the inlet exergy dG_in computed inside efficiencies is exactly
zero, yet efficiencies performs the divisions anyway and returns a value
pair -- there is no guard and no distinct undefined-efficiency signal (in
floating point the division emits inf/nan; in the real-number embedding
division by zero gives 0). -/
theorem efficiencies_no_guard_zero_exergy :
    (exergy 298 512 512 ((2 * 512 + 2 * 512) / (2 + 2)) 2 2 (2 + 2)).2 = 0
      ∧ efficiencies [512, 512] [512, 512] 2 2 298 5 = (0, 0) :=
  efficiencies_equal_conc 512 2 2 298 5 (by norm_num) (by norm_num)

/-- The TCPC activity coefficient is an exponential, hence positive. -/
theorem TCPC_pos (s : Salt) (I : ℝ) : 0 < Salt.TCPC s I := by
  simp only [Salt.TCPC]
  exact Real.exp_pos _

/-- CoFlow.activity is positive at positive concentration. -/
theorem CoFlow.activity_pos (c : ℝ) (hc : 0 < c) : 0 < CoFlow.activity c :=
  mul_pos hc (TCPC_pos NaCl (c / 1000))

theorem zipWith_self_replicate {α β : Type} (g : α → α → β) (k : ℕ) (a : α) :
    List.zipWith g (List.replicate k a) (List.replicate k a)
      = List.replicate k (g a a) := by
  induction k with
  | zero => rfl
  | succ j ih => simp [List.replicate_succ, ih]

/-- Claim C9: with equal concentrations in the two compartments and zero
load voltage the ODE right-hand side dQdx vanishes identically (so the
concentrations stay constant along the domain), and on the corresponding
constant solution the emf profile computed by solve_system is zero at
every domain point. -/
theorem dQdx_zero_equal_conc (s : CoFlow) (m : MembraneParams)
    (integ : List ℝ → List ℝ → ℝ) (k : ℕ) (c : ℝ) (hc : 0 < c)
    (hU : s.Uload = 0) :
    CoFlow.dQdx s m (c, c) = (0, 0)
      ∧ (CoFlow.solve_system s m integ (List.replicate k (c, c))).E
          = List.replicate k 0 := by
  have ha : CoFlow.activity c ≠ 0 := ne_of_gt (CoFlow.activity_pos c hc)
  have hlog : Real.log (CoFlow.activity c / CoFlow.activity c) = 0 := by
    rw [div_self ha, Real.log_one]
  constructor
  · simp only [CoFlow.dQdx, hU, hlog]
    norm_num
  · simp only [CoFlow.solve_system, List.map_replicate, zipWith_self_replicate,
      hlog, mul_zero]

/-- A concrete stack configuration (the spec scenario values). -/
noncomputable def sampleStack : CoFlow :=
  CoFlow.init 22 22 0.22 0.22 0.0001 idealLabel 0.08 17.1 512 100

/-- The same configuration at zero load voltage. -/
noncomputable def sampleStackU0 : CoFlow :=
  CoFlow.init 22 22 0.22 0.22 0.0001 idealLabel 0 17.1 512 100

/-- A trivial quadrature functional used to instantiate witnesses. -/
noncomputable def integZero : List ℝ → List ℝ → ℝ := fun _ _ => 0

/-- Witness for C9: ideal membranes, Uload = 0, equal concentrations
100 mol/m3 in both compartments, a 3-point constant solution. -/
theorem dQdx_zero_equal_conc_witness :
    (0 : ℝ) < 100 ∧ sampleStackU0.Uload = 0 ∧
      (CoFlow.dQdx sampleStackU0 idealMembrane (100, 100) = (0, 0)
        ∧ (CoFlow.solve_system sampleStackU0 idealMembrane integZero
            (List.replicate 3 (100, 100))).E = List.replicate 3 0) :=
  ⟨by norm_num, rfl,
    dQdx_zero_equal_conc sampleStackU0 idealMembrane integZero 3 100
      (by norm_num) rfl⟩

/-- Claim C4: at every domain point i of a solved profile, the emf computed
by solve_system equals (permselectivity*2*R*T/F) * ln(aSW/aRW) with the
activity of each stream equal to C * TCPC(C/1000), i.e. with the
concentration divided by 1000 (mol/m3 to mol/L) for the TCPC correlation. -/
theorem solve_system_emf_formula (s : CoFlow) (m : MembraneParams)
    (integ : List ℝ → List ℝ → ℝ) (sol : List (ℝ × ℝ)) (i : ℕ)
    (hi : i < sol.length) :
    (CoFlow.solve_system s m integ sol).E.getD i 0
      = m.a * 2 * s.R * s.Temp / s.Fad
        * Real.log
            ((sol.getD i (0, 0)).1 * Salt.TCPC NaCl ((sol.getD i (0, 0)).1 / 1000)
              / ((sol.getD i (0, 0)).2
                  * Salt.TCPC NaCl ((sol.getD i (0, 0)).2 / 1000))) := by
  have hA : i < ((sol.map Prod.fst).map CoFlow.activity).length := by simp [hi]
  have hB : i < ((sol.map Prod.snd).map CoFlow.activity).length := by simp [hi]
  have hfst : i < (sol.map Prod.fst).length := by simp [hi]
  have hsnd : i < (sol.map Prod.snd).length := by simp [hi]
  simp only [CoFlow.solve_system]
  rw [getD_zipWith_of_lt
      (fun aS aR => m.a * 2 * s.R * s.Temp / s.Fad * Real.log (aS / aR))
      ((sol.map Prod.fst).map CoFlow.activity)
      ((sol.map Prod.snd).map CoFlow.activity) i hA hB 0 0 0,
    getD_map_of_lt CoFlow.activity (sol.map Prod.fst) i hfst 0 0,
    getD_map_of_lt CoFlow.activity (sol.map Prod.snd) i hsnd 0 0,
    getD_map_of_lt Prod.fst sol i hi (0, 0) 0,
    getD_map_of_lt Prod.snd sol i hi (0, 0) 0]
  simp only [CoFlow.activity]

/-- Witness for C4 on the one-point profile [(512, 17.1)]. -/
theorem solve_system_emf_formula_witness :
    0 < [((512 : ℝ), (17.1 : ℝ))].length ∧
      (CoFlow.solve_system sampleStack idealMembrane integZero
          [((512 : ℝ), (17.1 : ℝ))]).E.getD 0 0
        = idealMembrane.a * 2 * sampleStack.R * sampleStack.Temp / sampleStack.Fad
          * Real.log
              (([((512 : ℝ), (17.1 : ℝ))].getD 0 (0, 0)).1
                  * Salt.TCPC NaCl (([((512 : ℝ), (17.1 : ℝ))].getD 0 (0, 0)).1 / 1000)
                / (([((512 : ℝ), (17.1 : ℝ))].getD 0 (0, 0)).2
                  * Salt.TCPC NaCl (([((512 : ℝ), (17.1 : ℝ))].getD 0 (0, 0)).2 / 1000))) :=
  ⟨by simp,
    solve_system_emf_formula sampleStack idealMembrane integZero
      [((512 : ℝ), (17.1 : ℝ))] 0 (by simp)⟩

/-- Closed form of the i-th np.linspace(0, L, n) node. -/
theorem linspace_getD (L : ℝ) (n : ℕ) (i : ℕ) (hi : i < n) :
    (linspace L n).getD i 0 = L * (i : ℝ) / ((n : ℝ) - 1) := by
  have h : i < (linspace L n).length := by rw [linspace_length]; exact hi
  unfold linspace at h ⊢
  rw [List.getD_eq_getElem _ 0 h, List.getElem_map, List.getElem_range]

/-- Claim C6: the spatial domain built by CoFlow.__init__ has exactly
`intervals` nodes running from 0 to L inclusive with a fixed positive step
L/(intervals-1), and -- for any integrator output satisfying the documented
odeint contract (one row per requested node, first row equal to the initial
condition Qzero) -- each extracted concentration profile has exactly
`intervals` entries, with first entry the configured inlet concentration. -/
theorem domain_and_profile_shape (tRW tSW W L d : ℝ) (mem : String)
    (U cRW0 cSW0 : ℝ) (n : ℕ) (m : MembraneParams)
    (integ : List ℝ → List ℝ → ℝ) (sol : List (ℝ × ℝ))
    (hL : 0 < L) (hn : 2 ≤ n)
    (hlen : sol.length = (CoFlow.init tRW tSW W L d mem U cRW0 cSW0 n).x.length)
    (hhead : sol.head? = some (CoFlow.init tRW tSW W L d mem U cRW0 cSW0 n).Qzero) :
    (CoFlow.init tRW tSW W L d mem U cRW0 cSW0 n).x.length = n
      ∧ (CoFlow.init tRW tSW W L d mem U cRW0 cSW0 n).x.getD 0 0 = 0
      ∧ (CoFlow.init tRW tSW W L d mem U cRW0 cSW0 n).x.getD (n - 1) 0 = L
      ∧ (∀ i, i + 1 < n →
          (CoFlow.init tRW tSW W L d mem U cRW0 cSW0 n).x.getD (i + 1) 0
              - (CoFlow.init tRW tSW W L d mem U cRW0 cSW0 n).x.getD i 0
            = L / ((n : ℝ) - 1))
      ∧ 0 < L / ((n : ℝ) - 1)
      ∧ (CoFlow.solve_system (CoFlow.init tRW tSW W L d mem U cRW0 cSW0 n)
          m integ sol).cSW.length = n
      ∧ (CoFlow.solve_system (CoFlow.init tRW tSW W L d mem U cRW0 cSW0 n)
          m integ sol).cRW.length = n
      ∧ (CoFlow.solve_system (CoFlow.init tRW tSW W L d mem U cRW0 cSW0 n)
          m integ sol).cSW.head? = some cSW0
      ∧ (CoFlow.solve_system (CoFlow.init tRW tSW W L d mem U cRW0 cSW0 n)
          m integ sol).cRW.head? = some cRW0 := by
  have hnR : (0 : ℝ) < (n : ℝ) - 1 := by
    have h2 : (2 : ℝ) ≤ (n : ℝ) := by exact_mod_cast hn
    linarith
  have hxlen : (CoFlow.init tRW tSW W L d mem U cRW0 cSW0 n).x.length = n :=
    linspace_length L n
  have hslen : sol.length = n := by rw [hlen, hxlen]
  refine ⟨hxlen, ?_, ?_, ?_, div_pos hL hnR, ?_, ?_, ?_, ?_⟩
  · show (linspace L n).getD 0 0 = 0
    rw [linspace_getD L n 0 (by omega)]
    norm_num
  · show (linspace L n).getD (n - 1) 0 = L
    rw [linspace_getD L n (n - 1) (by omega)]
    rw [Nat.cast_sub (by omega), Nat.cast_one, mul_div_assoc,
      div_self (ne_of_gt hnR), mul_one]
  · intro i h
    show (linspace L n).getD (i + 1) 0 - (linspace L n).getD i 0 = L / ((n : ℝ) - 1)
    rw [linspace_getD L n (i + 1) (by omega), linspace_getD L n i (by omega),
      div_sub_div_same]
    congr 1
    push_cast
    ring
  · show (sol.map Prod.fst).length = n
    rw [List.length_map, hslen]
  · show (sol.map Prod.snd).length = n
    rw [List.length_map, hslen]
  · show (sol.map Prod.fst).head? = some cSW0
    rw [List.head?_map, hhead]
    rfl
  · show (sol.map Prod.snd).head? = some cRW0
    rw [List.head?_map, hhead]
    rfl

/-- Witness for C6: a 3-node domain of length 1 m with a matching 3-row
integrator output whose first row is the initial condition (512, 17.1). -/
theorem domain_and_profile_shape_witness :
    ((0 : ℝ) < 1 ∧ 2 ≤ 3
      ∧ ([((512 : ℝ), (17.1 : ℝ)), (400, 100), (300, 200)]).length
          = (CoFlow.init 22 22 0.22 1 0.0001 idealLabel 0.08 17.1 512 3).x.length
      ∧ ([((512 : ℝ), (17.1 : ℝ)), (400, 100), (300, 200)]).head?
          = some (CoFlow.init 22 22 0.22 1 0.0001 idealLabel 0.08 17.1 512 3).Qzero)
    ∧ ((CoFlow.init 22 22 0.22 1 0.0001 idealLabel 0.08 17.1 512 3).x.length = 3
      ∧ (CoFlow.init 22 22 0.22 1 0.0001 idealLabel 0.08 17.1 512 3).x.getD 0 0 = 0
      ∧ (CoFlow.init 22 22 0.22 1 0.0001 idealLabel 0.08 17.1 512 3).x.getD (3 - 1) 0
          = 1
      ∧ (∀ i, i + 1 < 3 →
          (CoFlow.init 22 22 0.22 1 0.0001 idealLabel 0.08 17.1 512 3).x.getD (i + 1) 0
              - (CoFlow.init 22 22 0.22 1 0.0001 idealLabel 0.08 17.1 512 3).x.getD i 0
            = 1 / (((3 : ℕ) : ℝ) - 1))
      ∧ 0 < 1 / (((3 : ℕ) : ℝ) - 1)
      ∧ (CoFlow.solve_system (CoFlow.init 22 22 0.22 1 0.0001 idealLabel 0.08 17.1 512 3)
          idealMembrane integZero
          [((512 : ℝ), (17.1 : ℝ)), (400, 100), (300, 200)]).cSW.length = 3
      ∧ (CoFlow.solve_system (CoFlow.init 22 22 0.22 1 0.0001 idealLabel 0.08 17.1 512 3)
          idealMembrane integZero
          [((512 : ℝ), (17.1 : ℝ)), (400, 100), (300, 200)]).cRW.length = 3
      ∧ (CoFlow.solve_system (CoFlow.init 22 22 0.22 1 0.0001 idealLabel 0.08 17.1 512 3)
          idealMembrane integZero
          [((512 : ℝ), (17.1 : ℝ)), (400, 100), (300, 200)]).cSW.head? = some 512
      ∧ (CoFlow.solve_system (CoFlow.init 22 22 0.22 1 0.0001 idealLabel 0.08 17.1 512 3)
          idealMembrane integZero
          [((512 : ℝ), (17.1 : ℝ)), (400, 100), (300, 200)]).cRW.head? = some 17.1) := by
  have hlen : ([((512 : ℝ), (17.1 : ℝ)), (400, 100), (300, 200)]).length
      = (CoFlow.init 22 22 0.22 1 0.0001 idealLabel 0.08 17.1 512 3).x.length := by
    simp [CoFlow.init, linspace_length]
  have hhead : ([((512 : ℝ), (17.1 : ℝ)), (400, 100), (300, 200)]).head?
      = some (CoFlow.init 22 22 0.22 1 0.0001 idealLabel 0.08 17.1 512 3).Qzero := rfl
  exact ⟨⟨by norm_num, by norm_num, hlen, hhead⟩,
    domain_and_profile_shape 22 22 0.22 1 0.0001 idealLabel 0.08 17.1 512 3
      idealMembrane integZero [((512 : ℝ), (17.1 : ℝ)), (400, 100), (300, 200)]
      (by norm_num) (by norm_num) hlen hhead⟩

/-- Pointwise power density written from the spec formula
Pd(x) = (E*U - U^2)/Rcell, to compare with power_density. -/
noncomputable def spec_Pd (U : ℝ) (E Rcell : List ℝ) : List ℝ :=
  List.zipWith (fun e rc => (e * U - U ^ 2) / rc) E Rcell

/-- Claim C7: power_density computes the pointwise power density
(E*U - U^2)/Rcell, the average power density as the quadrature of Pd over x
divided by 2*L, and the total power as the average times 2*W*L (the
quadrature functional is the composite-Simpson simps routine of scipy,
external to the repository). -/
theorem power_density_formula (integ : List ℝ → List ℝ → ℝ) (U : ℝ)
    (E Rcell : List ℝ) (W L : ℝ) (x : List ℝ) (i : ℕ)
    (hiE : i < E.length) (hiR : i < Rcell.length) :
    power_density integ U E Rcell W L x
        = (integ (spec_Pd U E Rcell) x / (2 * L) * (2 * W * L),
            integ (spec_Pd U E Rcell) x / (2 * L))
      ∧ (spec_Pd U E Rcell).getD i 0
          = (E.getD i 0 * U - U ^ 2) / Rcell.getD i 0 := by
  constructor
  · rfl
  · simp only [spec_Pd]
    exact getD_zipWith_of_lt _ E Rcell i hiE hiR 0 0 0

/-- Witness for C7 on one-point profiles E = [0.1], Rcell = [0.002]. -/
theorem power_density_formula_witness :
    (0 < [(0.1 : ℝ)].length ∧ 0 < [(0.002 : ℝ)].length)
      ∧ (power_density integZero 0.08 [(0.1 : ℝ)] [(0.002 : ℝ)] 0.22 0.22 [(0 : ℝ)]
            = (integZero (spec_Pd 0.08 [(0.1 : ℝ)] [(0.002 : ℝ)]) [(0 : ℝ)] / (2 * 0.22)
                  * (2 * 0.22 * 0.22),
                integZero (spec_Pd 0.08 [(0.1 : ℝ)] [(0.002 : ℝ)]) [(0 : ℝ)] / (2 * 0.22))
          ∧ (spec_Pd 0.08 [(0.1 : ℝ)] [(0.002 : ℝ)]).getD 0 0
              = ([(0.1 : ℝ)].getD 0 0 * 0.08 - 0.08 ^ 2) / [(0.002 : ℝ)].getD 0 0) :=
  ⟨⟨by simp, by simp⟩,
    power_density_formula integZero 0.08 [(0.1 : ℝ)] [(0.002 : ℝ)] 0.22 0.22
      [(0 : ℝ)] 0 (by simp) (by simp)⟩

/-- Claim C3 (behaviour at the failing input): solve_system applies no
validity check to the integrator output; a profile whose second row holds
the non-physical concentration -5 mol/m3 is accepted and post-processed
into the result fields instead of being surfaced as a failure. -/
theorem solve_system_no_failure_check :
    (CoFlow.solve_system sampleStack idealMembrane integZero
        [((512 : ℝ), (17.1 : ℝ)), (-5, 10)]).cSW = [512, -5]
      ∧ (CoFlow.solve_system sampleStack idealMembrane integZero
          [((512 : ℝ), (17.1 : ℝ)), (-5, 10)]).cRW = [17.1, 10]
      ∧ (CoFlow.solve_system sampleStack idealMembrane integZero
          [((512 : ℝ), (17.1 : ℝ)), (-5, 10)]).E.length = 2 := by
  refine ⟨rfl, rfl, ?_⟩
  simp [CoFlow.solve_system]
